import Mathlib

/-
  Verification development for the conversational sales/support bot
  (intent classification, escalation rules, slot extraction, funnel
  routing, FAQ search and the chat-handler control flow).

  The Python sources are shallowly embedded: pure functions become Lean
  functions, float confidences become exact rationals (ℚ), Python dicts
  become insertion-ordered association lists, regular-expression searches
  become hand-written scanners with Python re.search semantics (leftmost
  start position, greedy quantifiers), `datetime.now()` timestamps become
  explicit parameters.  Cyrillic lowercasing reproduces Python `str.lower`
  on the alphabets actually used (ASCII and Russian).
-/

set_option autoImplicit false
set_option maxRecDepth 100000

namespace FaqBot

/-! ## Basic character and string helpers (Python semantics) -/

/-- Python whitespace for `str.split()` / `\s`. -/
def pyIsSpace (c : Char) : Bool :=
  c = ' ' || c = '\t' || c = '\n' || c = '\r' || c = '\x0b' || c = '\x0c'

/-- `str.lower` restricted to ASCII and Russian Cyrillic letters. -/
def toLowerRu (c : Char) : Char :=
  if 'A' ≤ c ∧ c ≤ 'Z' then Char.ofNat (c.toNat + 32)
  else if 'А' ≤ c ∧ c ≤ 'Я' then Char.ofNat (c.toNat + 32)
  else if c = 'Ё' then 'ё'
  else c

/-- Lowercase a whole string (Python `text.lower()`). -/
def strLower (s : String) : String := ⟨s.data.map toLowerRu⟩

/-- Substring test on character lists (Python `pat in s`). -/
def containsL (pat : List Char) : List Char → Bool
  | [] => pat.isEmpty
  | c :: t => pat.isPrefixOf (c :: t) || containsL pat t

/-- Python `pat in s` on strings. -/
def strContains (s pat : String) : Bool := containsL pat.data s.data

theorem isPrefixOf_self_append (p t : List Char) : p.isPrefixOf (p ++ t) = true := by
  induction p with
  | nil => simp [List.isPrefixOf]
  | cons c cs ih => simp [List.isPrefixOf, ih]

theorem containsL_append (pat a b : List Char) :
    containsL pat (a ++ pat ++ b) = true := by
  induction a with
  | nil =>
    cases hp : pat with
    | nil =>
      cases b with
      | nil => rfl
      | cons x xs => simp [containsL, List.isPrefixOf]
    | cons c cs =>
      show containsL (c :: cs) ((c :: cs) ++ b) = true
      have h := isPrefixOf_self_append (c :: cs) b
      simp [containsL, h]
  | cons x xs ih =>
    show containsL pat (x :: (xs ++ pat ++ b)) = true
    simp only [containsL, Bool.or_eq_true]
    right
    simpa using ih

/-- If the text literally decomposes around the pattern, `strContains` holds. -/
theorem strContains_of_eq (s pat : String) (x y : List Char)
    (h : s.data = x ++ pat.data ++ y) : strContains s pat = true := by
  unfold strContains
  rw [h]
  exact containsL_append pat.data x y

/-- Helper for Python `str.split()`: accumulate the current chunk. -/
def pySplitAux : List Char → List Char → List (List Char)
  | [], acc => if acc.isEmpty then [] else [acc.reverse]
  | c :: t, acc =>
    if pyIsSpace c then
      if acc.isEmpty then pySplitAux t [] else acc.reverse :: pySplitAux t []
    else pySplitAux t (c :: acc)

/-- Python `s.split()`: split on whitespace runs, dropping empty chunks. -/
def pyWords (s : String) : List String :=
  (pySplitAux s.data []).map (fun l => ⟨l⟩)

theorem pySplitAux_chunks (cs : List Char) : ∀ (acc w : List Char),
    w ∈ pySplitAux cs acc → ∃ x y, acc.reverse ++ cs = x ++ w ++ y := by
  induction cs with
  | nil =>
    intro acc w hw
    by_cases ha : acc.isEmpty
    · simp [pySplitAux, ha] at hw
    · simp [pySplitAux, ha] at hw
      exact ⟨[], [], by simp [hw]⟩
  | cons c t ih =>
    intro acc w hw
    by_cases hsp : pyIsSpace c
    · by_cases ha : acc.isEmpty
      · have hacc : acc = [] := by
          cases acc with
          | nil => rfl
          | cons _ _ => simp [List.isEmpty] at ha
        rw [pySplitAux, if_pos hsp, if_pos ha] at hw
        obtain ⟨x, y, hxy⟩ := ih [] w hw
        refine ⟨c :: x, y, ?_⟩
        simp [hacc]
        simpa using hxy
      · rw [pySplitAux, if_pos hsp, if_neg ha] at hw
        rcases List.mem_cons.mp hw with h | h
        · exact ⟨[], c :: t, by simp [h]⟩
        · obtain ⟨x, y, hxy⟩ := ih [] w h
          simp at hxy
          refine ⟨acc.reverse ++ c :: x, y, ?_⟩
          simp [hxy, List.append_assoc]
    · rw [pySplitAux, if_neg hsp] at hw
      obtain ⟨x, y, hxy⟩ := ih (c :: acc) w hw
      refine ⟨x, y, ?_⟩
      rw [List.append_cons acc.reverse c t]
      simpa using hxy

/-- Every chunk `str.split()` yields is a substring of the original text. -/
theorem pyWords_contains (s : String) (w : String) (hw : w ∈ pyWords s) :
    strContains s w = true := by
  unfold pyWords at hw
  obtain ⟨l, hl, hlw⟩ := List.mem_map.mp hw
  obtain ⟨x, y, hxy⟩ := pySplitAux_chunks s.data [] l hl
  simp at hxy
  have hdata : w.data = l := by rw [← hlw]
  exact strContains_of_eq s w x y (by rw [hdata, hxy, List.append_assoc])

/-! ## Kernel-reducible rational arithmetic

Python float confidences are modelled as exact rationals.  The operations are
implemented through `Rat.divInt` and the `num`/`den` projections, which the
kernel evaluates on closed inputs; bridge lemmas identify them with the usual
`ℚ` operations for symbolic reasoning. -/

/-- The rational `n / d` (all numeric constants of the code go through this). -/
def ratN (n : Int) (d : Nat) : ℚ := Rat.divInt n d

/-- Addition of rationals by cross-multiplication. -/
def pyAdd (a b : ℚ) : ℚ := Rat.divInt (a.num * b.den + b.num * a.den) (a.den * b.den)

/-- Multiplication of rationals. -/
def pyMul (a b : ℚ) : ℚ := Rat.divInt (a.num * b.num) (a.den * b.den)

/-- Python `min(a, b)` (returns the first argument on ties). -/
def pyMin (a b : ℚ) : ℚ := if b < a then b else a

theorem ratN_eq (n : Int) (d : Nat) : ratN n d = (n : ℚ) / (d : ℚ) := by
  rw [ratN, Rat.divInt_eq_div]
  norm_num

theorem pyAdd_eq (a b : ℚ) : pyAdd a b = a + b := by
  have ha : ((a.den : ℚ)) ≠ 0 := by
    exact_mod_cast a.den_nz
  have hb : ((b.den : ℚ)) ≠ 0 := by
    exact_mod_cast b.den_nz
  rw [pyAdd, Rat.divInt_eq_div]
  push_cast
  conv_rhs => rw [← Rat.num_div_den a, ← Rat.num_div_den b]
  field_simp

theorem pyMul_eq (a b : ℚ) : pyMul a b = a * b := by
  have ha : ((a.den : ℚ)) ≠ 0 := by
    exact_mod_cast a.den_nz
  have hb : ((b.den : ℚ)) ≠ 0 := by
    exact_mod_cast b.den_nz
  rw [pyMul, Rat.divInt_eq_div]
  push_cast
  conv_rhs => rw [← Rat.num_div_den a, ← Rat.num_div_den b]
  field_simp

theorem pyMin_eq (a b : ℚ) : pyMin a b = min a b := by
  rw [pyMin]
  rcases lt_trichotomy b a with h | h | h
  · rw [if_pos h, min_eq_right (le_of_lt h)]
  · rw [if_neg (by rw [h]; exact lt_irrefl a), h, min_self]
  · rw [if_neg (not_lt.mpr (le_of_lt h)), min_eq_left (le_of_lt h)]

/-! ## Intent classifier (src/nlu/intent_classifier.py) -/

/-- A message of the conversation history (role, content).  History is
threaded through the pipeline but the classifier and extractor ignore it. -/
structure Msg where
  role : String
  content : String
deriving DecidableEq

/-- Result of intent classification (`Intent` dataclass).  `priority` is the
`IntentPriority` ordinal (1 = security … 7 = navigation); `confidence` is the
float confidence, modelled exactly as a rational. -/
structure Intent where
  name : String
  priority : Nat
  confidence : ℚ
  group : String
deriving DecidableEq

/-- One entry of the classifier registry: `(intent_name, priority, group, keywords)`. -/
structure RegEntry where
  name : String
  priority : Nat
  group : String
  keywords : List String
deriving DecidableEq

/-- The registry built by `IntentClassifier._build_intent_registry`, already in
its priority-sorted order (the insertion order coincides with the sort order,
and Python's sort is stable). -/
def intent_registry : List RegEntry :=
  [ ⟨"abuse", 1, "security",
      ["мошенни", "обман", "кидал", "развод", "скам", "хакер", "взлом", "вирус"]⟩,
    ⟨"aggression", 1, "security",
      ["сука", "блять", "пидор", "хуй", "ублюдок", "мудак", "гнида", "сволочь",
       "уебок", "убью", "убить", "угрож"]⟩,
    ⟨"fraud_signals", 1, "security",
      ["дай пароль", "назови пароль", "данные клиента", "дай телефон",
       "телефон клиента", "покажи заказ", "заказ другого"]⟩,
    ⟨"privacy_request", 2, "privacy",
      ["удалить данные", "удалите мои данные", "забыть меня", "право на забвение",
       "gdpr", "персональные данные", "запрос данных"]⟩,
    ⟨"delete_data", 2, "privacy",
      ["удалить", "удалите", "стереть", "очистить историю", "забыть"]⟩,
    ⟨"get_data_copy", 2, "privacy",
      ["выгрузить данные", "копия данных", "экспорт данных",
       "что вы знаете обо мне", "какие данные храните"]⟩,
    ⟨"refund_request", 3, "complaints",
      ["возврат", "вернуть", "вернуть деньги", "верните деньги", "отменить заказ",
       "не хочу", "отказ от заказа"]⟩,
    ⟨"complaint_quality", 3, "complaints",
      ["плохое качество", "не работает", "сломалось", "дефект", "брак",
       "некачественно", "не то что обещали"]⟩,
    ⟨"complaint_service", 3, "complaints",
      ["плохой сервис", "не довольн", "жалоба", "претензия", "обманули",
       "не выполнили", "задержка"]⟩,
    ⟨"buy", 4, "transactions",
      ["купить", "заказать", "оформить", "хочу заказать", "готов заказать",
       "оформляем"]⟩,
    ⟨"payment", 4, "transactions",
      ["оплата", "оплатить", "как оплатить", "способ оплаты", "где платить",
       "счет"]⟩,
    ⟨"invoice", 4, "transactions",
      ["счёт", "выставить счёт", "нужен счёт", "инвойс", "реквизиты"]⟩,
    ⟨"appointment_booking", 4, "transactions",
      ["записаться", "запись", "назначить встречу", "консультация", "созвониться"]⟩,
    ⟨"services_browse", 5, "presales",
      ["услуги", "что делаете", "чем занимаетесь", "направления", "сервисы",
       "предлагаете"]⟩,
    ⟨"pricing_request", 5, "presales",
      ["цена", "стоимость", "сколько стоит", "расценки", "прайс", "тариф",
       "бюджет"]⟩,
    ⟨"timing_request", 5, "presales",
      ["срок", "как долго", "когда", "время выполнения", "длительность",
       "как быстро"]⟩,
    ⟨"comparison", 5, "presales",
      ["сравнить", "разница", "отличие", "что лучше", "чем отличаетесь",
       "конкуренты"]⟩,
    ⟨"objections", 5, "presales",
      ["дорого", "долго", "не уверен", "подумать", "сомневаюсь", "не убедили"]⟩,
    ⟨"how_to", 6, "support",
      ["как", "инструкция", "не понятно", "не получается", "помогите",
       "подскажите"]⟩,
    ⟨"status", 6, "support",
      ["статус", "где заказ", "отследить", "трек номер", "проверить заказ"]⟩,
    ⟨"change_order", 6, "support",
      ["изменить", "поменять", "добавить", "убрать", "изменить заказ"]⟩,
    ⟨"cancel_order", 6, "support", ["отменить", "не нужен", "отмена заказа"]⟩,
    ⟨"greet", 7, "navigation",
      ["привет", "здравствуй", "добрый день", "доброе утро", "добрый вечер",
       "hi", "hello"]⟩,
    ⟨"menu", 7, "navigation", ["меню", "главная", "разделы", "что умеешь"]⟩,
    ⟨"help", 7, "navigation", ["помощь", "справка", "что делать", "не понимаю"]⟩,
    ⟨"human_handoff", 7, "navigation",
      ["менеджер", "оператор", "человек", "специалист", "живой",
       "хочу с человеком"]⟩ ]

/-- `IntentClassifier._calculate_confidence`: matched-keyword fraction with a
+0.3 bonus (capped at 1.0) for short messages. -/
def calculate_confidence (text_lower : String) (keywords : List String) : ℚ :=
  let matched := keywords.countP (fun k => strContains text_lower k)
  let total := keywords.length
  if matched = 0 then ratN 0 1
  else
    let confidence : ℚ := ratN matched total
    if (pyWords text_lower).length ≤ 5 ∧ matched > 0 then
      pyMin (pyAdd confidence (ratN 3 10)) (ratN 1 1)
    else confidence

/-- The default `general` intent returned when nothing matches. -/
def default_intent : Intent := ⟨"general", 7, ratN 1 2, "navigation"⟩

/-- The cascading loop of `IntentClassifier.classify` over a registry tail. -/
def classifyFrom (tl : String) : List RegEntry → Intent
  | [] => default_intent
  | e :: rest =>
    let confidence := calculate_confidence tl e.keywords
    if confidence > ratN 0 1 then
      if e.priority ≤ 3 then ⟨e.name, e.priority, confidence, e.group⟩
      else if confidence ≥ ratN 3 10 then ⟨e.name, e.priority, confidence, e.group⟩
      else classifyFrom tl rest
    else classifyFrom tl rest

/-- `IntentClassifier.classify` (the history argument is unused by the code). -/
def classify (text : String) : Intent :=
  classifyFrom (strLower text) intent_registry

/-! ## Spec-side description of `classify` (for the refinement claim C3) -/

/-- The three zero-tolerance groups named by the specification. -/
def critical_groups : List String := ["security", "privacy", "complaints"]

/-- Spec wording: an entry qualifies if its confidence is nonzero for the
critical groups, or at least 0.3 for every other group. -/
def qualifiesSpec (tl : String) (e : RegEntry) : Bool :=
  let c := calculate_confidence tl e.keywords
  if critical_groups.contains e.group then decide (c ≠ ratN 0 1)
  else decide (c ≥ ratN 3 10)

/-- Spec wording of `classify`: the first qualifying entry of the
priority-sorted registry, else the default `general/navigation` intent with
confidence exactly 0.5. -/
def classifySpec (text : String) : Intent :=
  match intent_registry.find? (qualifiesSpec (strLower text)) with
  | some e => ⟨e.name, e.priority, calculate_confidence (strLower text) e.keywords, e.group⟩
  | none => default_intent

theorem ratN_zero : ratN 0 1 = 0 := by
  rw [ratN_eq]
  norm_num

theorem ratN_three_tenths : ratN 3 10 = 3/10 := by
  rw [ratN_eq]
  norm_num

theorem calculate_confidence_nonneg (tl : String) (kws : List String) :
    0 ≤ calculate_confidence tl kws := by
  simp only [calculate_confidence, ratN_eq, pyAdd_eq, pyMin_eq]
  split
  · norm_num
  · have hdiv : (0 : ℚ) ≤ (kws.countP (fun k => strContains tl k) : ℚ) / (kws.length : ℚ) :=
      div_nonneg (by positivity) (by positivity)
    split
    · refine le_min (by push_cast; linarith) (by norm_num)
    · exact hdiv

theorem classifyFrom_eq_find (tl : String) (l : List RegEntry)
    (h : ∀ e ∈ l, e.priority ≤ 3 ↔ critical_groups.contains e.group = true) :
    classifyFrom tl l =
      (match l.find? (qualifiesSpec tl) with
       | some e => ⟨e.name, e.priority, calculate_confidence tl e.keywords, e.group⟩
       | none => default_intent) := by
  induction l with
  | nil => rfl
  | cons e rest ih =>
    have he := h e (List.mem_cons_self e rest)
    have hr := ih (fun e' h' => h e' (List.mem_cons_of_mem e h'))
    have hnn := calculate_confidence_nonneg tl e.keywords
    rw [classifyFrom, List.find?]
    by_cases hc : calculate_confidence tl e.keywords > ratN 0 1
    · rw [if_pos hc]
      by_cases hp : e.priority ≤ 3
      · have hcrit : critical_groups.contains e.group = true := he.mp hp
        have hq : qualifiesSpec tl e = true := by
          unfold qualifiesSpec
          rw [if_pos hcrit]
          exact decide_eq_true (ne_of_gt hc)
        rw [if_pos hp, hq]
      · have hcrit : critical_groups.contains e.group = false := by
          by_contra hx
          exact hp (he.mpr (by simpa using hx))
        have hcrit' : ¬(critical_groups.contains e.group = true) := by
          rw [hcrit]; simp
        by_cases ht : calculate_confidence tl e.keywords ≥ ratN 3 10
        · have hq : qualifiesSpec tl e = true := by
            unfold qualifiesSpec
            rw [if_neg hcrit']
            exact decide_eq_true ht
          rw [if_neg hp, if_pos ht, hq]
        · have hq : qualifiesSpec tl e = false := by
            unfold qualifiesSpec
            rw [if_neg hcrit']
            exact decide_eq_false ht
          rw [if_neg hp, if_neg ht, hq]
          exact hr
    · have hzero : calculate_confidence tl e.keywords = ratN 0 1 := by
        rw [ratN_zero]
        refine le_antisymm ?_ hnn
        have := not_lt.mp hc
        rw [ratN_zero] at this
        exact this
      have hq : qualifiesSpec tl e = false := by
        unfold qualifiesSpec
        split
        · simp [hzero]
        · rw [hzero]
          exact decide_eq_false (by rw [ratN_zero, ratN_three_tenths]; norm_num)
      rw [if_neg hc, hq]
      exact hr

/-- C3: For every input text, `classify` returns the first entry of the
priority-sorted registry whose confidence is nonzero (for the groups security,
privacy, complaints) or at least 0.3 (for every other group); if no entry
qualifies it returns the default intent named "general" with group
"navigation" and confidence exactly 0.5.  Stated as a refinement: the code
(`classify`) coincides with the spec-worded search (`classifySpec`). -/
theorem classify_matches_spec (text : String) : classify text = classifySpec text := by
  unfold classify classifySpec
  exact classifyFrom_eq_find (strLower text) intent_registry (by decide)

/-- Every result of the cascading loop is either the default intent or comes
from a registry entry, and in the latter case either the entry is critical
(priority ≤ 3) or the confidence passed the 0.3 threshold. -/
theorem classifyFrom_cases (tl : String) (l : List RegEntry) :
    classifyFrom tl l = default_intent ∨
    ∃ e ∈ l, classifyFrom tl l = ⟨e.name, e.priority, calculate_confidence tl e.keywords, e.group⟩ ∧
      (e.priority ≤ 3 ∨ calculate_confidence tl e.keywords ≥ ratN 3 10) := by
  induction l with
  | nil => exact Or.inl rfl
  | cons e rest ih =>
    rw [classifyFrom]
    by_cases hc : calculate_confidence tl e.keywords > ratN 0 1
    · rw [if_pos hc]
      by_cases hp : e.priority ≤ 3
      · rw [if_pos hp]
        exact Or.inr ⟨e, List.mem_cons_self e rest, rfl, Or.inl hp⟩
      · rw [if_neg hp]
        by_cases ht : calculate_confidence tl e.keywords ≥ ratN 3 10
        · rw [if_pos ht]
          exact Or.inr ⟨e, List.mem_cons_self e rest, rfl, Or.inr ht⟩
        · rw [if_neg ht]
          rcases ih with h | ⟨e', he', heq, hcond⟩
          · exact Or.inl h
          · exact Or.inr ⟨e', List.mem_cons_of_mem e he', heq, hcond⟩
    · rw [if_neg hc]
      rcases ih with h | ⟨e', he', heq, hcond⟩
      · exact Or.inl h
      · exact Or.inr ⟨e', List.mem_cons_of_mem e he', heq, hcond⟩

/-- The group of any classified intent is one of the seven known groups. -/
theorem classify_group_mem (text : String) :
    (classify text).group ∈ ["security", "privacy", "complaints", "transactions",
      "presales", "support", "navigation"] := by
  rcases classifyFrom_cases (strLower text) intent_registry with h | ⟨e, he, heq, -⟩
  · rw [classify, h]
    simp [default_intent]
  · rw [classify, heq]
    have : ∀ e' ∈ intent_registry, e'.group ∈ ["security", "privacy", "complaints",
        "transactions", "presales", "support", "navigation"] := by decide
    exact this e he

/-- A transactions- or support-group intent is only ever produced with
confidence at least 0.3. -/
theorem classify_trans_support_conf (text : String)
    (h : (classify text).group = "transactions" ∨ (classify text).group = "support") :
    (classify text).confidence ≥ ratN 3 10 := by
  rcases classifyFrom_cases (strLower text) intent_registry with hd | ⟨e, he, heq, hcond⟩
  · rw [classify] at *
    rw [hd] at h
    simp [default_intent] at h
  · rw [classify] at *
    rw [heq] at h ⊢
    rcases hcond with hp | ht
    · have hnot : ∀ e' ∈ intent_registry, e'.priority ≤ 3 →
          ¬(e'.group = "transactions" ∨ e'.group = "support") := by decide
      exact absurd h (hnot e he hp)
    · exact ht

/-! ## Escalation rules (src/handoff/escalation_rules.py) -/

/-- The super-priority groups that always escalate. -/
def super_priority_groups : List String := ["security", "privacy", "complaints"]

/-- `EscalationRules.should_escalate`: `(escalate?, reason)`. -/
def should_escalate (intent : Intent) (confidence : ℚ) : Bool × String :=
  if intent.group ∈ super_priority_groups then
    (true, "Критичный интент группы \x27" ++ intent.group ++ "\x27")
  else if confidence < ratN 3 10 ∧ intent.group ∈ (["transactions", "support"] : List String) then
    (true, "Низкая уверенность классификации при критичном запросе")
  else if intent.name = "human_handoff" then
    (true, "Пользователь явно запросил менеджера")
  else if intent.name = "legal" then
    (true, "Юридический вопрос требует специалиста")
  else (false, "")

/-- `EscalationRules.get_escalation_message`: canned per-intent-name message. -/
def get_escalation_message (intent : Intent) : String :=
  if intent.name = "privacy" then
    "Ваш запрос по персональным данным зарегистрирован. Специалист свяжется с вами для верификации и выполнения запроса. Ожидаемый срок — до 30 дней."
  else if intent.name = "refund_request" then
    "Ваш запрос на возврат принят. Менеджер свяжется с вами в течение 24 часов для уточнения деталей."
  else if intent.name = "complaint" then
    "Ваша жалоба зарегистрирована. Мы свяжемся с вами в течение 1 рабочего дня."
  else if intent.name = "aggression" then
    "Передаю вас специалисту для решения вопроса."
  else if intent.name = "human_handoff" then
    "Соединяю с менеджером. Если сейчас вне рабочего времени — свяжемся утром."
  else "Передаю ваш запрос специалисту для решения."

/-- C1: For every intent whose group is security, privacy or complaints and
every confidence value (including 0.01), `should_escalate` returns `true`
with a reason naming the critical intent group. -/
theorem should_escalate_critical (intent : Intent) (confidence : ℚ)
    (h : intent.group ∈ super_priority_groups) :
    should_escalate intent confidence
      = (true, "Критичный интент группы \x27" ++ intent.group ++ "\x27") ∧
    strContains ("Критичный интент группы \x27" ++ intent.group ++ "\x27")
      intent.group = true := by
  constructor
  · unfold should_escalate
    rw [if_pos h]
  · refine strContains_of_eq _ _ ("Критичный интент группы \x27".data) ("\x27".data) ?_
    cases hg : intent.group with
    | mk gdata =>
      show ("Критичный интент группы \x27" ++ ⟨gdata⟩ ++ "\x27").data = _
      rfl

/-- Witness for C1 at group "complaints" with confidence 0.01. -/
theorem should_escalate_critical_witness :
    should_escalate ⟨"refund_request", 3, ratN 1 100, "complaints"⟩ (ratN 1 100)
      = (true, "Критичный интент группы \x27" ++ "complaints" ++ "\x27") ∧
    strContains ("Критичный интент группы \x27" ++ "complaints" ++ "\x27")
      "complaints" = true :=
  should_escalate_critical ⟨"refund_request", 3, ratN 1 100, "complaints"⟩ (ratN 1 100)
    (by decide)

/-! ## Ticket types, priorities and SLA (src/handoff/ticket_manager.py,
src/bot/handlers/chat_new.py `handle_escalation`) -/

inductive TicketType
  | sales_lead | refund | complaint | legal | privacy
deriving DecidableEq

inductive TicketPriority
  | P1 | P2 | P3
deriving DecidableEq

/-- `TicketManager._get_priority_by_type` (total map; code default is P3). -/
def get_priority_by_type : TicketType → TicketPriority
  | .privacy => .P1
  | .legal => .P1
  | .refund => .P1
  | .complaint => .P2
  | .sales_lead => .P3

/-- SLA hours per priority (`TicketManager._calculate_sla_deadline`). -/
def sla_hours : TicketPriority → Nat
  | .P1 => 4
  | .P2 => 24
  | .P3 => 72

/-- `TicketManager._calculate_sla_deadline`, with `datetime.now()` modelled as
an hour count passed explicitly. -/
def calculate_sla_deadline (now : Nat) (p : TicketPriority) : Nat :=
  now + sla_hours p

/-- The `ticket_type_map.get(intent.group, TicketType.SALES_LEAD)` lookup of
`handle_escalation` in chat_new.py.  Note the keys "refund_request",
"complaint" and "legal" are intent *names*, while the lookup key is the
intent *group*. -/
def ticket_type_for_escalation (group : String) : TicketType :=
  if group = "privacy" then .privacy
  else if group = "refund_request" then .refund
  else if group = "complaint" then .complaint
  else if group = "legal" then .legal
  else .sales_lead

/-- C9: For every classified intent whose group is not "privacy" (including
"complaints" and "security"), the escalation ticket type falls back to
`sales_lead`, hence priority P3 and an SLA deadline exactly 72 hours after
creation: the other map keys are intent names, never group values. -/
theorem escalation_ticket_defaults (text : String) (now : Nat)
    (h : (classify text).group ≠ "privacy") :
    ticket_type_for_escalation (classify text).group = TicketType.sales_lead ∧
    get_priority_by_type (ticket_type_for_escalation (classify text).group)
      = TicketPriority.P3 ∧
    calculate_sla_deadline now
      (get_priority_by_type (ticket_type_for_escalation (classify text).group))
      = now + 72 := by
  have hmem := classify_group_mem text
  have htype : ticket_type_for_escalation (classify text).group = TicketType.sales_lead := by
    simp only [List.mem_cons, List.not_mem_nil, or_false] at hmem
    rcases hmem with hg | hg | hg | hg | hg | hg | hg <;>
      first
        | exact absurd hg h
        | (rw [hg]; rfl)
  refine ⟨htype, ?_, ?_⟩
  · rw [htype]
    rfl
  · rw [htype]
    rfl

/-- Witness for C9 at the text "купить" (a transactions-group intent). -/
theorem escalation_ticket_defaults_witness :
    ticket_type_for_escalation (classify "купить").group = TicketType.sales_lead ∧
    get_priority_by_type (ticket_type_for_escalation (classify "купить").group)
      = TicketPriority.P3 ∧
    calculate_sla_deadline 100
      (get_priority_by_type (ticket_type_for_escalation (classify "купить").group))
      = 100 + 72 :=
  escalation_ticket_defaults "купить" 100 (by decide)

/-- C10: the low-confidence escalation rule is unreachable at the handler's
call site `should_escalate(intent, intent.confidence)`: classify never yields
a transactions/support intent with confidence below 0.3 (and the default
intent has group "navigation" with confidence 0.5), so the result is never
the low-confidence escalation. -/
theorem low_confidence_escalation_unreachable :
    (∀ text : String,
      ((classify text).group = "transactions" ∨ (classify text).group = "support") →
      (classify text).confidence ≥ ratN 3 10) ∧
    (∀ text : String,
      should_escalate (classify text) (classify text).confidence
        ≠ (true, "Низкая уверенность классификации при критичном запросе")) := by
  refine ⟨classify_trans_support_conf, ?_⟩
  intro text
  have hmem := classify_group_mem text
  simp only [List.mem_cons, List.not_mem_nil, or_false] at hmem
  unfold should_escalate
  rcases hmem with hg | hg | hg | hg | hg | hg | hg
  all_goals rw [hg]
  -- critical groups take the first branch, whose reason string differs
  · rw [if_pos (by decide)]
    decide
  · rw [if_pos (by decide)]
    decide
  · rw [if_pos (by decide)]
    decide
  -- transactions: the low-confidence guard is refuted by the confidence bound
  · rw [if_neg (by decide)]
    rw [if_neg (by
      intro hand
      have := classify_trans_support_conf text (Or.inl hg)
      exact absurd hand.1 (not_lt.mpr this))]
    split
    · decide
    · split
      · decide
      · decide
  -- presales: the group is not in the low-confidence guard list
  · rw [if_neg (by decide)]
    rw [if_neg (fun hand => absurd hand.2 (by decide))]
    split
    · decide
    · split
      · decide
      · decide
  -- support: the low-confidence guard is refuted by the confidence bound
  · rw [if_neg (by decide)]
    rw [if_neg (by
      intro hand
      have := classify_trans_support_conf text (Or.inr hg)
      exact absurd hand.1 (not_lt.mpr this))]
    split
    · decide
    · split
      · decide
      · decide
  -- navigation: the group is not in the low-confidence guard list
  · rw [if_neg (by decide)]
    rw [if_neg (fun hand => absurd hand.2 (by decide))]
    split
    · decide
    · split
      · decide
      · decide

/-- Witness for C10 at the transactions text "купить" (confidence 7/15 ≥ 0.3). -/
theorem low_confidence_escalation_unreachable_witness :
    (classify "купить").confidence ≥ ratN 3 10 :=
  low_confidence_escalation_unreachable.1 "купить" (by decide)

/-! ## Slot extraction (src/nlu/slot_extractor.py)

Python dicts are insertion-ordered association lists; the regular-expression
searches are hand-written scanners with `re.search` semantics (leftmost start
position wins, quantifiers are greedy, alternatives are tried in order). -/

/-- `SlotValue` dataclass. -/
structure SlotValue where
  name : String
  value : Option String
  confidence : ℚ
  extracted_from : String
deriving DecidableEq

/-- Insertion-ordered dict update (existing key keeps its position). -/
def dictSet (l : List (String × SlotValue)) (k : String) (v : SlotValue) :
    List (String × SlotValue) :=
  match l with
  | [] => [(k, v)]
  | (k', v') :: t => if k' = k then (k, v) :: t else (k', v') :: dictSet t k v

/-- Dict lookup. -/
def dictGet (l : List (String × SlotValue)) (k : String) : Option SlotValue :=
  match l with
  | [] => none
  | (k', v) :: t => if k' = k then some v else dictGet t k

theorem dictGet_set_same (l : List (String × SlotValue)) (k : String) (v : SlotValue) :
    dictGet (dictSet l k v) k = some v := by
  induction l with
  | nil => simp [dictSet, dictGet]
  | cons p t ih =>
    obtain ⟨k', v'⟩ := p
    by_cases h : k' = k
    · simp [dictSet, dictGet, h]
    · simp [dictSet, dictGet, h, ih]

theorem dictGet_set_other (l : List (String × SlotValue)) (k k' : String) (v : SlotValue)
    (h : k' ≠ k) : dictGet (dictSet l k' v) k = dictGet l k := by
  induction l with
  | nil => simp [dictSet, dictGet, h]
  | cons p t ih =>
    obtain ⟨k0, v0⟩ := p
    by_cases h0 : k0 = k'
    · simp [dictSet, dictGet, h0, h]
    · by_cases h1 : k0 = k
      · simp [dictSet, dictGet, h0, h1, Ne.symm h]
      · simp [dictSet, dictGet, h0, h1, ih]

/-- `SlotCollection` dataclass. -/
structure SlotCollection where
  slots : List (String × SlotValue)
  required_slots : List String
deriving DecidableEq

/-- Python truthiness of an optional string (`None` and `""` are falsy). -/
def py_truthy : Option String → Bool
  | none => false
  | some s => !s.isEmpty

/-- Python `x or d` for an optional string field. -/
def py_or_default (v : Option String) (d : String) : String :=
  match v with
  | none => d
  | some s => if s.isEmpty then d else s

namespace SlotCollection

/-- `SlotCollection.set_value` (always overwrites; `extracted_from="manual"`). -/
def set_value (c : SlotCollection) (slot_name value : String) (confidence : ℚ) :
    SlotCollection :=
  ⟨dictSet c.slots slot_name ⟨slot_name, some value, confidence, "manual"⟩,
   c.required_slots⟩

/-- `SlotCollection.get_value`. -/
def get_value (c : SlotCollection) (slot_name : String) : Option String :=
  match dictGet c.slots slot_name with
  | some sv => sv.value
  | none => none

/-- `SlotCollection.get_missing_slots`. -/
def get_missing_slots (c : SlotCollection) : List String :=
  c.required_slots.filter (fun n =>
    match dictGet c.slots n with
    | some sv => sv.value.isNone
    | none => true)

/-- `SlotCollection.is_complete`. -/
def is_complete (c : SlotCollection) : Bool :=
  c.required_slots.all (fun n =>
    match dictGet c.slots n with
    | some sv => sv.value.isSome
    | none => false)

end SlotCollection

/-! ### Pattern scanners (the regexes of SlotExtractor) -/

/-- Try a matcher at every start position, leftmost first (`re.search`). -/
def scanFor {α : Type} (f : List Char → Option α) : List Char → Option α
  | [] => f []
  | c :: t =>
    match f (c :: t) with
    | some r => some r
    | none => scanFor f t

/-- `re.search` over a string. -/
def reSearch {α : Type} (f : List Char → Option α) (s : String) : Option α :=
  scanFor f s.data

/-- Consume an optional single character (greedy `c?`). -/
def optCh (c : Char) (l : List Char) : List Char × List Char :=
  match l with
  | x :: t => if x = c then ([c], t) else ([], l)
  | [] => ([], [])

/-- Exactly `n` digits (`\d{n}`). -/
def nDigits (n : Nat) (l : List Char) : Option (List Char × List Char) :=
  let d := l.take n
  if d.length = n && d.all Char.isDigit then some (d, l.drop n) else none

/-- Pattern `(\d+)\s*(?:руб|рублей|тысяч|тыс|к)` at one position: the captured
digit group. -/
def budgetAt (l : List Char) : Option String :=
  let (d, r) := l.span Char.isDigit
  if d.isEmpty then none
  else
    let r2 := (r.span pyIsSpace).2
    if "руб".data.isPrefixOf r2 || "рублей".data.isPrefixOf r2 ||
       "тысяч".data.isPrefixOf r2 || "тыс".data.isPrefixOf r2 ||
       "к".data.isPrefixOf r2 then some ⟨d⟩ else none

/-- Pattern `lit\s*(\d+)` at one position: the captured digit group. -/
def litDigitsAt (lit : String) (l : List Char) : Option String :=
  if lit.data.isPrefixOf l then
    let rest := l.drop lit.data.length
    let r2 := (rest.span pyIsSpace).2
    let d := (r2.span Char.isDigit).1
    if d.isEmpty then none else some ⟨d⟩
  else none

/-- `SlotExtractor.BUDGET_PATTERNS` tried in order, returning `group(1)`. -/
def budget_amount (tl : String) : Option String :=
  match reSearch budgetAt tl with
  | some a => some a
  | none =>
    match reSearch (litDigitsAt "бюджет") tl with
    | some a => some a
    | none =>
      match reSearch (litDigitsAt "до") tl with
      | some a => some a
      | none => reSearch (litDigitsAt "около") tl

/-- `SlotExtractor._extract_budget`: normalize thousand markers.  Note the
marker test is a plain substring check over the whole lowered text (`"к" in
text_lower` matches the letter anywhere, not only as an amount suffix). -/
def extract_budget (tl : String) : Option String :=
  match budget_amount tl with
  | none => none
  | some amount =>
    if strContains tl "тысяч" || strContains tl "тыс" || strContains tl "к" then
      some (amount ++ "000 руб")
    else some (amount ++ " руб")

/-- Pattern `заказ\s*№?\s*(\d+)` at one position. -/
def orderIdAt1 (l : List Char) : Option String :=
  if "заказ".data.isPrefixOf l then
    let r := l.drop 5
    let r := (r.span pyIsSpace).2
    let r := (optCh '№' r).2
    let r := (r.span pyIsSpace).2
    let d := (r.span Char.isDigit).1
    if d.isEmpty then none else some ⟨d⟩
  else none

/-- Pattern `заказа?\s*(\d+)` at one position. -/
def orderIdAt2 (l : List Char) : Option String :=
  if "заказ".data.isPrefixOf l then
    let r := l.drop 5
    let r := (optCh 'а' r).2
    let r := (r.span pyIsSpace).2
    let d := (r.span Char.isDigit).1
    if d.isEmpty then none else some ⟨d⟩
  else none

/-- Pattern `#(\d+)` at one position. -/
def orderIdAt4 (l : List Char) : Option String :=
  match l with
  | '#' :: r =>
    let d := (r.span Char.isDigit).1
    if d.isEmpty then none else some ⟨d⟩
  | _ => none

/-- `SlotExtractor._extract_order_id` (IGNORECASE is modelled by scanning the
lowered text; the captured group is all digits, unaffected by case). -/
def extract_order_id (text : String) : Option String :=
  let tl := strLower text
  match reSearch orderIdAt1 tl with
  | some a => some a
  | none =>
    match reSearch orderIdAt2 tl with
    | some a => some a
    | none =>
      match reSearch (litDigitsAt "номер") tl with
      | some a => some a
      | none => reSearch orderIdAt4 tl

/-- First literal of an alternation matching as a prefix. -/
def firstLit (lits : List String) (l : List Char) : Option String :=
  match lits with
  | [] => none
  | s :: rest => if s.data.isPrefixOf l then some s else firstLit rest l

/-- Pattern `через\s+(\d+)\s+(?:день|дня|дней|неделю|недели|недель|месяц|месяца|месяцев)`
at one position, returning `group(0)`. -/
def deadlineAt (l : List Char) : Option String :=
  if "через".data.isPrefixOf l then
    let r := l.drop 5
    let (sp1, r) := r.span pyIsSpace
    if sp1.isEmpty then none
    else
      let (d, r) := r.span Char.isDigit
      if d.isEmpty then none
      else
        let (sp2, r) := r.span pyIsSpace
        if sp2.isEmpty then none
        else
          match firstLit ["день", "дня", "дней", "неделю", "недели", "недель",
              "месяц", "месяца", "месяцев"] r with
          | some u => some ⟨"через".data ++ sp1 ++ d ++ sp2 ++ u.data⟩
          | none => none
  else none

/-- Pattern `до\s+(\d+)` at one position, returning `group(0)`. -/
def doDigitsAt (l : List Char) : Option String :=
  if "до".data.isPrefixOf l then
    let r := l.drop 2
    let (sp, r) := r.span pyIsSpace
    if sp.isEmpty then none
    else
      let d := (r.span Char.isDigit).1
      if d.isEmpty then none else some ⟨"до".data ++ sp ++ d⟩
  else none

/-- `SlotExtractor._extract_deadline`: literal keywords first, then the
relative-time patterns (returning the whole match), then the remaining
literal pattern of the list. -/
def extract_deadline (tl : String) : Option String :=
  if strContains tl "срочно" then some "срочно"
  else if strContains tl "сегодня" then some "сегодня"
  else if strContains tl "завтра" then some "завтра"
  else
    match reSearch deadlineAt tl with
    | some m => some m
    | none =>
      match reSearch doDigitsAt tl with
      | some m => some m
      | none =>
        if strContains tl "как можно скорее" then some "как можно скорее" else none

/-- Tail of both phone patterns: `\s*\(?\d{3}\)?\s*\d{3}-?\d{2}-?\d{2}`;
`pre` is the already-consumed head of the match (`+?7` or `8`). -/
def phoneTail (pre : List Char) (l : List Char) : Option String :=
  let (s1, r) := l.span pyIsSpace
  let (p1, r) := optCh '(' r
  match nDigits 3 r with
  | none => none
  | some (d1, r) =>
    let (p2, r) := optCh ')' r
    let (s2, r) := r.span pyIsSpace
    match nDigits 3 r with
    | none => none
    | some (d2, r) =>
      let (h1, r) := optCh '-' r
      match nDigits 2 r with
      | none => none
      | some (d3, r) =>
        let (h2, r) := optCh '-' r
        match nDigits 2 r with
        | none => none
        | some (d4, _) =>
          some ⟨pre ++ s1 ++ p1 ++ d1 ++ p2 ++ s2 ++ d2 ++ h1 ++ d3 ++ h2 ++ d4⟩

/-- Pattern `\+?7\s*\(?\d{3}\)?\s*\d{3}-?\d{2}-?\d{2}` at one position. -/
def phoneAt1 (l : List Char) : Option String :=
  let (plus, r) := optCh '+' l
  match r with
  | '7' :: r2 => phoneTail (plus ++ ['7']) r2
  | _ => none

/-- Pattern `8\s*\(?\d{3}\)?\s*\d{3}-?\d{2}-?\d{2}` at one position. -/
def phoneAt2 (l : List Char) : Option String :=
  match l with
  | '8' :: r => phoneTail ['8'] r
  | _ => none

/-- Character class `[a-zA-Z0-9._%+-]` of the email local part. -/
def emailLocalChar (c : Char) : Bool :=
  c.isAlpha || c.isDigit || c = '.' || c = '_' || c = '%' || c = '+' || c = '-'

/-- Character class `[a-zA-Z0-9.-]` of the email domain part. -/
def emailDomainChar (c : Char) : Bool :=
  c.isAlpha || c.isDigit || c = '.' || c = '-'

/-- Backtracking of `[a-zA-Z0-9.-]+\.[a-zA-Z]{2,}` inside the maximal domain
run: try the longest domain part first (greedy), demanding a dot followed by
at least two ASCII letters (taken greedily). -/
def emailTrySplit (dom : List Char) : Nat → Option (List Char)
  | 0 => none
  | n + 1 =>
    match dom.drop (n + 1) with
    | '.' :: tail =>
      let tld := (tail.span Char.isAlpha).1
      if tld.length ≥ 2 then some (dom.take (n + 1) ++ '.' :: tld)
      else emailTrySplit dom n
    | _ => emailTrySplit dom n

/-- Pattern `[a-zA-Z0-9._%+-]+@[a-zA-Z0-9.-]+\.[a-zA-Z]{2,}` at one position. -/
def emailAt (l : List Char) : Option String :=
  let (loc, r) := l.span emailLocalChar
  if loc.isEmpty then none
  else
    match r with
    | '@' :: r2 =>
      let dom := (r2.span emailDomainChar).1
      match emailTrySplit dom dom.length with
      | some d => some ⟨loc ++ '@' :: d⟩
      | none => none
    | _ => none

/-- `SlotExtractor._extract_contact`: phone patterns first, then email. -/
def extract_contact (text : String) : Option String :=
  match reSearch phoneAt1 text with
  | some p => some p
  | none =>
    match reSearch phoneAt2 text with
    | some p => some p
    | none => reSearch emailAt text

/-- `SlotExtractor._extract_goal`: keyword buckets in dict order (the history
argument of the source is unused). -/
def extract_goal (tl : String) : Option String :=
  if ["консультация", "посоветовать", "помочь разобраться"].any (strContains tl) then
    some "консультация"
  else if ["разработать", "создать", "сделать сайт", "приложение"].any (strContains tl) then
    some "разработка"
  else if ["поддержка", "сопровождение", "обслуживание", "техподдержка"].any (strContains tl) then
    some "поддержка"
  else if ["автоматизировать", "автоматизация", "оптимизировать"].any (strContains tl) then
    some "автоматизация"
  else none

/-- `SlotExtractor.extract`: run the five extraction rules and collect the
found slots with their fixed confidences. -/
def extract (text : String) (_history : List Msg) (required_slots : List String) :
    SlotCollection :=
  let tl := strLower text
  let s0 : List (String × SlotValue) := []
  let s1 := match extract_order_id text with
    | some v => dictSet s0 "order_id" ⟨"order_id", some v, ratN 9 10, text⟩
    | none => s0
  let s2 := match extract_budget tl with
    | some v => dictSet s1 "budget_band" ⟨"budget_band", some v, ratN 4 5, text⟩
    | none => s1
  let s3 := match extract_deadline tl with
    | some v => dictSet s2 "deadline" ⟨"deadline", some v, ratN 7 10, text⟩
    | none => s2
  let s4 := match extract_contact text with
    | some v => dictSet s3 "contact" ⟨"contact", some v, ratN 19 20, text⟩
    | none => s3
  let s5 := match extract_goal tl with
    | some v => dictSet s4 "goal" ⟨"goal", some v, ratN 3 5, text⟩
    | none => s4
  ⟨s5, required_slots⟩

/-- The per-slot question table and `SlotExtractor.ask_next_missing`. -/
def slot_questions : List (String × String) :=
  [("goal", "Какая у вас цель? Что именно нужно сделать?"),
   ("desired_outcome", "Какой результат хотите получить?"),
   ("requested_item", "Что именно вас интересует из наших услуг?"),
   ("deadline", "Когда нужно? Есть ли срок?"),
   ("budget_band", "Какой у вас бюджет? Хотя бы примерно."),
   ("location", "Где находитесь? В каком городе?"),
   ("constraints", "Есть ли какие-то обязательные условия или ограничения?"),
   ("quantity", "Какой объём работ? Сколько нужно?"),
   ("contact", "Оставьте контакт для связи (телефон или email)."),
   ("order_id", "Напишите номер заказа.")]

def lookupStr (l : List (String × String)) (k : String) : Option String :=
  match l with
  | [] => none
  | (k', v) :: t => if k' = k then some v else lookupStr t k

def ask_next_missing (c : SlotCollection) : String :=
  let missing := c.get_missing_slots
  match missing with
  | [] => ""
  | next :: _ =>
    let question := (lookupStr slot_questions next).getD ("Уточните: " ++ next)
    if missing.length > 1 then
      let combined := (missing.take 3).filterMap (fun s => lookupStr slot_questions s)
      match combined with
      | q0 :: q1 :: _ => q0 ++ " И " ++ strLower q1
      | _ => question
    else question

/-- The slot-merge loop of `handle_text_message` (chat_new.py lines 130-134)
and `QualificationStage.process`: every extracted slot with a truthy value is
written into the user's collection by an explicit `set_value` call. -/
def merge_extracted (slots extracted : SlotCollection) : SlotCollection :=
  extracted.slots.foldl
    (fun acc p =>
      match p.2.value with
      | some v => if v.isEmpty then acc else acc.set_value p.1 v p.2.confidence
      | none => acc)
    slots

/-! ### Claims about the extractor -/

theorem extract_budget_lookup (text : String) (hist : List Msg) (rs : List String) :
    dictGet (extract text hist rs).slots "budget_band" =
      match extract_budget (strLower text) with
      | some v => some ⟨"budget_band", some v, ratN 4 5, text⟩
      | none => none := by
  unfold extract
  cases h1 : extract_order_id text <;>
  cases h2 : extract_budget (strLower text) <;>
  cases h3 : extract_deadline (strLower text) <;>
  cases h4 : extract_contact text <;>
  cases h5 : extract_goal (strLower text) <;>
    simp +decide [h1, h2, h3, h4, h5, dictGet_set_same, dictGet_set_other, dictGet]

/-- C7 (amended): whenever a budget pattern captures an amount `A`, the
extractor stores a `budget_band` slot with confidence 0.8 whose value is
`"A000 руб"` exactly when the lowered text contains the substring "тысяч",
"тыс" or the letter "к" *anywhere* (the code checks the whole text, not an
amount suffix), else `"A руб"`. -/
theorem budget_slot_extraction (text : String) (hist : List Msg) (A : String)
    (h : budget_amount (strLower text) = some A) :
    dictGet (extract text hist []).slots "budget_band" =
      some ⟨"budget_band",
        some (if strContains (strLower text) "тысяч" || strContains (strLower text) "тыс"
                || strContains (strLower text) "к"
              then A ++ "000 руб" else A ++ " руб"),
        ratN 4 5, text⟩ := by
  have hb : extract_budget (strLower text) =
      if strContains (strLower text) "тысяч" || strContains (strLower text) "тыс"
        || strContains (strLower text) "к"
      then some (A ++ "000 руб") else some (A ++ " руб") := by
    unfold extract_budget
    rw [h]
  rw [extract_budget_lookup, hb]
  by_cases hc : (strContains (strLower text) "тысяч" || strContains (strLower text) "тыс"
      || strContains (strLower text) "к") = true
  · rw [if_pos hc, if_pos hc]
  · rw [if_neg hc, if_neg hc]

/-- Witness for C7 at the spec's example "50 тыс руб". -/
theorem budget_slot_extraction_witness :
    budget_amount (strLower "50 тыс руб") = some "50" ∧
    dictGet (extract "50 тыс руб" [] []).slots "budget_band" =
      some ⟨"budget_band", some "50000 руб", ratN 4 5, "50 тыс руб"⟩ := by
  refine ⟨rfl, ?_⟩
  exact (budget_slot_extraction "50 тыс руб" [] "50" rfl).trans rfl

/-- C7 counterexample to the claim as stated: "около 50 руб" has no thousand
marker attached to the amount (neither "тысяч" nor "тыс" occurs; the letter
"к" only occurs inside the word "около"), the captured amount is "50", yet
the stored value is "50000 руб" rather than "50 руб". -/
theorem budget_thousand_anywhere_counterexample :
    budget_amount (strLower "около 50 руб") = some "50" ∧
    strContains (strLower "около 50 руб") "тысяч" = false ∧
    strContains (strLower "около 50 руб") "тыс" = false ∧
    dictGet (extract "около 50 руб" [] []).slots "budget_band" =
      some ⟨"budget_band", some "50000 руб", ratN 4 5, "около 50 руб"⟩ ∧
    ("50000 руб" : String) ≠ "50 руб" :=
  ⟨rfl, rfl, rfl, rfl, by decide⟩

theorem get_value_set_same (c : SlotCollection) (k v : String) (conf : ℚ) :
    (c.set_value k v conf).get_value k = some v := by
  unfold SlotCollection.set_value SlotCollection.get_value
  simp [dictGet_set_same]

theorem get_value_set_other (c : SlotCollection) (k k' v : String) (conf : ℚ)
    (h : k' ≠ k) : (c.set_value k' v conf).get_value k = c.get_value k := by
  unfold SlotCollection.set_value SlotCollection.get_value
  rw [dictGet_set_other _ _ _ _ h]

theorem merge_untouched_aux (l : List (String × SlotValue)) (slots : SlotCollection)
    (name : String)
    (h : ∀ p ∈ l, p.1 = name → py_truthy p.2.value = false) :
    (l.foldl
      (fun acc p =>
        match p.2.value with
        | some v => if v.isEmpty then acc else acc.set_value p.1 v p.2.confidence
        | none => acc)
      slots).get_value name = slots.get_value name := by
  induction l generalizing slots with
  | nil => rfl
  | cons p t ih =>
    have hp := h p (List.mem_cons_self p t)
    have ht : ∀ q ∈ t, q.1 = name → py_truthy q.2.value = false :=
      fun q hq => h q (List.mem_cons_of_mem p hq)
    rw [List.foldl_cons, ih _ ht]
    cases hv : p.2.value with
    | none => simp [hv]
    | some v =>
      by_cases hn : p.1 = name
      · have hf := hp hn
        rw [hv] at hf
        simp [py_truthy] at hf
        simp [hv, hf]
      · simp only [hv]
        split
        · rfl
        · exact get_value_set_other slots name p.1 v p.2.confidence hn

/-- C5: the slot-merge policy across turns.  First conjunct: `set_value` is
last-write-wins, with no confidence-based arbitration (the new value is
stored whatever the old or new confidence is).  Second conjunct: the per-turn
merge loop (`merge_extracted`, the only place the pipeline writes into a
user's stored collection) leaves a slot untouched unless the extraction
produced a truthy value for it — i.e. a stored value is only ever overwritten
through an explicit `set_value` call. -/
theorem slot_merge_policy :
    (∀ (c : SlotCollection) (n v : String) (conf : ℚ),
      (c.set_value n v conf).get_value n = some v) ∧
    (∀ (slots extracted : SlotCollection) (name : String),
      (∀ p ∈ extracted.slots, p.1 = name → py_truthy p.2.value = false) →
      (merge_extracted slots extracted).get_value name = slots.get_value name) := by
  constructor
  · intro c n v conf
    exact get_value_set_same c n v conf
  · intro slots extracted name h
    exact merge_untouched_aux extracted.slots slots name h

/-- Witness for C5: a stored goal of confidence 0.6 survives the merge of a
turn ("привет") that extracts nothing, and an explicit `set_value` always
lands. -/
theorem slot_merge_policy_witness :
    ((⟨[], []⟩ : SlotCollection).set_value "goal" "консультация" (ratN 3 5)).get_value
        "goal" = some "консультация" ∧
    (merge_extracted
        ((⟨[], []⟩ : SlotCollection).set_value "goal" "консультация" (ratN 3 5))
        (extract "привет" [] [])).get_value "goal" = some "консультация" := by
  refine ⟨slot_merge_policy.1 ⟨[], []⟩ "goal" "консультация" (ratN 3 5), ?_⟩
  have h := slot_merge_policy.2
    ((⟨[], []⟩ : SlotCollection).set_value "goal" "консультация" (ratN 3 5))
    (extract "привет" [] []) "goal" (by decide)
  rw [h]
  exact slot_merge_policy.1 ⟨[], []⟩ "goal" "консультация" (ratN 3 5)

/-! ## Knowledge base (src/knowledge/faq_loader.py) -/

structure Company where
  name : String
  description : String
  website : String
  phone : String
  email : String
  telegram : String
deriving DecidableEq

structure Service where
  id : String
  name : String
  description : String
  price : String
  duration : String
  benefits : List String
deriving DecidableEq

structure FAQItem where
  id : Nat
  question : String
  answer : String
  category : String
  keywords : List String
deriving DecidableEq

structure CommonPhrases where
  greeting : String
  closing : String
  not_found : String
  error : String
  thinking : String
deriving DecidableEq

structure KnowledgeBase where
  company : Company
  services : List Service
  faq : List FAQItem
  phrases : CommonPhrases
deriving DecidableEq

/-! ## Funnel stages and context (src/funnel/stages.py) -/

inductive FunnelStage
  | acquisition | qualification | offer | closing | support | complaints | retention
deriving DecidableEq

/-- The string value of the `FunnelStage` str-enum. -/
def stage_value : FunnelStage → String
  | .acquisition => "acquisition"
  | .qualification => "qualification"
  | .offer => "offer"
  | .closing => "closing"
  | .support => "support"
  | .complaints => "complaints"
  | .retention => "retention"

/-- `StageResult` dataclass. -/
structure StageResult where
  stage : FunnelStage
  success : Bool
  response_text : String
  next_stage : Option FunnelStage
  requires_handoff : Bool
  handoff_reason : Option String
  collected_slots : List (String × String)
  metadata : List (String × String)
deriving DecidableEq

/-- `FunnelContext` dataclass.  `last_stage_change` holds the caller-supplied
timestamp string (`datetime.now().isoformat()` is environmental and passed in
explicitly). -/
structure FunnelContext where
  user_id : Int
  current_stage : FunnelStage
  slots : SlotCollection
  stage_entry_count : List (FunnelStage × Nat)
  last_stage_change : Option String
deriving DecidableEq

/-- The per-stage visit counter update of `FunnelContext.move_to_stage`. -/
def bump_count (l : List (FunnelStage × Nat)) (s : FunnelStage) :
    List (FunnelStage × Nat) :=
  match l with
  | [] => [(s, 1)]
  | (s', n) :: t => if s' = s then (s', n + 1) :: t else (s', n) :: bump_count t s

/-- `FunnelContext.move_to_stage`. -/
def move_to_stage (ctx : FunnelContext) (new_stage : FunnelStage) (now : String) :
    FunnelContext :=
  ⟨ctx.user_id, new_stage, ctx.slots, bump_count ctx.stage_entry_count new_stage,
   some now⟩

/-! ## Funnel router (src/funnel/router.py) -/

/-- `FunnelRouter._determine_stage_by_intent`.  The final Python test
`if funnel_context.current_stage:` is the truthiness of the str-enum value. -/
def determine_stage_by_intent (intent : Intent) (ctx : FunnelContext) : FunnelStage :=
  if intent.group = "complaints" then .complaints
  else if intent.group = "privacy" then .support
  else if intent.group = "support" then .support
  else if intent.group = "transactions" then
    (if py_truthy (ctx.slots.get_value "goal") then .closing else .qualification)
  else if intent.group = "presales" then
    (if !py_truthy (ctx.slots.get_value "goal") then .qualification else .offer)
  else if !(stage_value ctx.current_stage).isEmpty then ctx.current_stage
  else .acquisition

/-- C4: the desired-stage computation, as the spec lists it: complaints →
complaints; privacy or support → support; transactions → closing when a goal
slot value is set (Python truthiness), else qualification; presales →
qualification when no goal value is set, else offer; otherwise the context's
current stage — independent of the user's current stage for the override
groups.  ("Acquisition when none is set" is vacuous here: every stage enum
value is a nonempty string, so the truthiness test always keeps the current
stage.) -/
theorem determine_stage_spec (intent : Intent) (ctx : FunnelContext) :
    determine_stage_by_intent intent ctx =
      if intent.group = "complaints" then .complaints
      else if intent.group = "privacy" ∨ intent.group = "support" then .support
      else if intent.group = "transactions" then
        (if py_truthy (ctx.slots.get_value "goal") then .closing else .qualification)
      else if intent.group = "presales" then
        (if py_truthy (ctx.slots.get_value "goal") then .offer else .qualification)
      else ctx.current_stage := by
  unfold determine_stage_by_intent
  have hstage : (!(stage_value ctx.current_stage).isEmpty) = true := by
    cases ctx.current_stage <;> decide
  by_cases h1 : intent.group = "complaints" <;>
  by_cases h2 : intent.group = "privacy" <;>
  by_cases h3 : intent.group = "support" <;>
  by_cases h4 : intent.group = "transactions" <;>
  by_cases h5 : intent.group = "presales" <;>
  cases hg : py_truthy (ctx.slots.get_value "goal") <;>
    simp_all

/-! ## Stage policies (src/funnel/*.py).  Each `process` is pure: it returns
the `StageResult` together with the (possibly updated) slot collection, since
qualification and closing mutate the caller's collection in place. -/

/-- `AcquisitionStage._is_greeting_or_smalltalk`. -/
def is_greeting_or_smalltalk (tl : String) : Bool :=
  ["привет", "здравствуй", "добрый", "как дела", "как ты", "что нового"].any
    (strContains tl)

/-- `AcquisitionStage._is_browsing`. -/
def is_browsing (tl : String) : Bool :=
  ["что вы делаете", "чем занимаетесь", "что предлагаете", "покажите",
   "расскажите", "что у вас"].any (strContains tl)

/-- `AcquisitionStage._handle_greeting`. -/
def handle_greeting (kb : KnowledgeBase) : String :=
  "Привет! На связи помощник " ++ kb.company.name ++
    " 🙂 Чем помочь: услуги/цены/сроки/контакты/поддержка?"

/-- `AcquisitionStage._handle_general_inquiry`. -/
def handle_general_inquiry : String :=
  "Чем могу помочь?\n• Узнать об услугах и ценах\n• Оформить заказ\n• Поддержка по существующему заказу\n• Возврат или жалоба"

/-- `AcquisitionStage._handle_browsing`. -/
def handle_browsing (kb : KnowledgeBase) : String :=
  if kb.services.length ≥ 2 then
    "Мы помогаем с: " ++
      String.intercalate ", " ((kb.services.take 3).map Service.name) ++
      ".\n\nЧто ближе к вашей задаче? Или нужна рекомендация?"
  else handle_general_inquiry

/-- `AcquisitionStage.process`. -/
def acquisition_process (kb : KnowledgeBase) (user_message : String) (intent : Intent)
    (slots : SlotCollection) (_history : List Msg) : StageResult × SlotCollection :=
  let tl := strLower user_message
  if is_greeting_or_smalltalk tl then
    (⟨.acquisition, true, handle_greeting kb, some .acquisition, false, none, [], []⟩,
     slots)
  else if is_browsing tl then
    (⟨.acquisition, true, handle_browsing kb, some .qualification, false, none, [], []⟩,
     slots)
  else if intent.name ≠ "general" ∧ intent.name ≠ "greet" then
    (⟨.acquisition, true, "", some .qualification, false, none, [],
      [("intent", intent.name)]⟩, slots)
  else
    (⟨.acquisition, true, handle_general_inquiry, some .acquisition, false, none, [], []⟩,
     slots)

/-- `QualificationStage._create_summary`. -/
def create_summary (slots : SlotCollection) : String :=
  "Понял:\n• Задача: " ++ py_or_default (slots.get_value "goal") "не указано" ++
    "\n• Бюджет: " ++ py_or_default (slots.get_value "budget_band") "не указано" ++
    "\n• Срок: " ++ py_or_default (slots.get_value "deadline") "не указано" ++
    "\n\nСейчас подберу варианты..."

/-- The required slots of the qualification stage. -/
def qualification_required : List String := ["goal", "budget_band", "deadline"]

/-- `BaseFunnelStage.is_complete` over a stage's own required-slot list. -/
def stage_is_complete (required : List String) (slots : SlotCollection) : Bool :=
  required.all (fun n => (slots.get_value n).isSome)

/-- `QualificationStage.process`. -/
def qualification_process (user_message : String) (_intent : Intent)
    (slots : SlotCollection) (history : List Msg) : StageResult × SlotCollection :=
  let new_slots := extract user_message history qualification_required
  let slots1 := merge_extracted slots new_slots
  if stage_is_complete qualification_required slots1 then
    (⟨.qualification, true, create_summary slots1, some .offer, false, none,
      qualification_required.map (fun n => (n, py_or_default (slots1.get_value n) "")),
      []⟩, slots1)
  else
    (⟨.qualification, false, ask_next_missing slots1, some .qualification, false, none,
      [], []⟩, slots1)

/-- `OfferStage._user_wants_to_order`. -/
def user_wants_to_order (tl : String) : Bool :=
  ["заказ", "оформ", "согласен", "подходит", "беру", "давайте", "да"].any
    (strContains tl)

/-- `OfferStage._create_offer`. -/
def create_offer (kb : KnowledgeBase) : String :=
  match kb.services with
  | [] => "Свяжитесь с менеджером для подбора решения."
  | s1 :: rest =>
    match rest with
    | s2 :: _ =>
      "Вижу 2 подходящих варианта:\n\nВариант A — " ++ s1.name ++ "\n• " ++
        s1.description ++ "\n• Цена: " ++ s1.price ++ "\n• Срок: " ++ s1.duration ++
        "\n\nВариант B — " ++ s2.name ++ "\n• " ++ s2.description ++ "\n• Цена: " ++
        s2.price ++ "\n• Срок: " ++ s2.duration ++ "\n\nКакой ближе — A или B?"
    | [] =>
      "Подходит: " ++ s1.name ++ "\n• " ++ s1.description ++ "\n• Цена: " ++
        s1.price ++ "\n• Срок: " ++ s1.duration ++ "\n\nОформляем?"

/-- `OfferStage.process`. -/
def offer_process (kb : KnowledgeBase) (user_message : String) (_intent : Intent)
    (slots : SlotCollection) (_history : List Msg) : StageResult × SlotCollection :=
  if user_wants_to_order (strLower user_message) then
    (⟨.offer, true, "Отлично! Оформляем заказ.", some .closing, false, none, [], []⟩,
     slots)
  else
    (⟨.offer, true, create_offer kb, some .offer, false, none, [], []⟩, slots)

/-- `ClosingStage._create_order_confirmation`. -/
def create_order_confirmation (kb : KnowledgeBase) (slots : SlotCollection) : String :=
  "✅ Заявка принята!\n\nВаши данные:\n• Задача: " ++
    py_or_default (slots.get_value "goal") "услуга" ++
    "\n• Бюджет: " ++ py_or_default (slots.get_value "budget_band") "уточнение" ++
    "\n• Срок: " ++ py_or_default (slots.get_value "deadline") "уточнение" ++
    "\n• Контакт: " ++ py_or_default (slots.get_value "contact") "" ++
    "\n\nМенеджер свяжется с вами в течение часа.\nЕсли срочно: " ++ kb.company.phone

/-- `ClosingStage.process`. -/
def closing_process (kb : KnowledgeBase) (user_message : String) (_intent : Intent)
    (slots : SlotCollection) (history : List Msg) : StageResult × SlotCollection :=
  let new_slots := extract user_message history []
  let slots1 :=
    match dictGet new_slots.slots "contact" with
    | some sv =>
      match sv.value with
      | some c => if c.isEmpty then slots else slots.set_value "contact" c (ratN 1 1)
      | none => slots
    | none => slots
  if py_truthy (slots1.get_value "contact") then
    (⟨.closing, true, create_order_confirmation kb slots1, none, false, none, [],
      [("order_created", "true")]⟩, slots1)
  else
    (⟨.closing, false, "Оставьте контакт для связи (телефон или email).",
      some .closing, false, none, [], []⟩, slots1)

/-- `SupportStage.process`. -/
def support_process (_user_message : String) (_intent : Intent)
    (slots : SlotCollection) (_history : List Msg) : StageResult × SlotCollection :=
  let response :=
    if py_truthy (slots.get_value "order_id") then
      "Проверяю заказ №" ++ py_or_default (slots.get_value "order_id") "" ++
        ". Свяжитесь с поддержкой для актуального статуса."
    else "Напишите номер заказа для проверки статуса."
  (⟨.support, true, response, none, false, none, [], []⟩, slots)

/-- `ComplaintsStage.process`. -/
def complaints_process (_user_message : String) (_intent : Intent)
    (slots : SlotCollection) (_history : List Msg) : StageResult × SlotCollection :=
  (⟨.complaints, true,
    "Понял. Помогу оформить возврат/жалобу.\n\nУточните:\n• Номер заказа\n• Причина (не подошло/дефект/ошибка/другое)\n• Контакт для связи\n\nОтвет по решению — до 7 рабочих дней.",
    none, true, some "Возврат/претензия требует участия менеджера", [], []⟩, slots)

/-- `RetentionStage.process`. -/
def retention_process (_user_message : String) (_intent : Intent)
    (slots : SlotCollection) (_history : List Msg) : StageResult × SlotCollection :=
  (⟨.retention, true,
    "Рад что получилось! Если понадобится что-то ещё — обращайтесь.",
    none, false, none, [], []⟩, slots)

/-- The stage dispatch table of `FunnelRouter.__init__`. -/
def stage_process (kb : KnowledgeBase) (stage : FunnelStage) (msg : String)
    (intent : Intent) (slots : SlotCollection) (history : List Msg) :
    StageResult × SlotCollection :=
  match stage with
  | .acquisition => acquisition_process kb msg intent slots history
  | .qualification => qualification_process msg intent slots history
  | .offer => offer_process kb msg intent slots history
  | .closing => closing_process kb msg intent slots history
  | .support => support_process msg intent slots history
  | .complaints => complaints_process msg intent slots history
  | .retention => retention_process msg intent slots history

/-- `FunnelRouter.route`. -/
def route (kb : KnowledgeBase) (ctx : FunnelContext) (user_message : String)
    (intent : Intent) (history : List Msg) (now : String) :
    StageResult × FunnelContext :=
  let current_stage := determine_stage_by_intent intent ctx
  let ctx1 := if current_stage ≠ ctx.current_stage then move_to_stage ctx current_stage now
              else ctx
  let (result, slots1) := stage_process kb current_stage user_message intent ctx1.slots history
  let ctx2 : FunnelContext :=
    ⟨ctx1.user_id, ctx1.current_stage, slots1, ctx1.stage_entry_count,
     ctx1.last_stage_change⟩
  let ctx3 :=
    match result.next_stage with
    | some ns => if ns ≠ current_stage then move_to_stage ctx2 ns now else ctx2
    | none => ctx2
  (result, ctx3)

/-! ### Claims about the closing stage -/

theorem extract_contact_lookup (text : String) (hist : List Msg) (rs : List String) :
    dictGet (extract text hist rs).slots "contact" =
      match extract_contact text with
      | some v => some ⟨"contact", some v, ratN 19 20, text⟩
      | none => none := by
  unfold extract
  cases h1 : extract_order_id text <;>
  cases h2 : extract_budget (strLower text) <;>
  cases h3 : extract_deadline (strLower text) <;>
  cases h4 : extract_contact text <;>
  cases h5 : extract_goal (strLower text) <;>
    simp +decide [h1, h2, h3, h4, h5, dictGet_set_same, dictGet_set_other, dictGet]

/-- The order confirmation always contains the contact it was built from. -/
theorem confirmation_contains_contact (kb : KnowledgeBase) (slots : SlotCollection) :
    strContains (create_order_confirmation kb slots)
      (py_or_default (slots.get_value "contact") "") = true := by
  refine strContains_of_eq _ _
    (("✅ Заявка принята!\n\nВаши данные:\n• Задача: ").data ++
      (py_or_default (slots.get_value "goal") "услуга").data ++
      ("\n• Бюджет: ").data ++
      (py_or_default (slots.get_value "budget_band") "уточнение").data ++
      ("\n• Срок: ").data ++
      (py_or_default (slots.get_value "deadline") "уточнение").data ++
      ("\n• Контакт: ").data)
    (("\n\nМенеджер свяжется с вами в течение часа.\nЕсли срочно: ").data ++
      kb.company.phone.data) ?_
  simp [create_order_confirmation, String.data_append, List.append_assoc]

theorem isEmpty_false_of_ne (s : String) (h : s ≠ "") : s.isEmpty = false := by
  cases he : s.isEmpty
  · rfl
  · exact absurd ((String.isEmpty_iff s).mp he) h

theorem py_or_default_of_ne (s : String) (d : String) (h : s ≠ "") :
    py_or_default (some s) d = s := by
  simp [py_or_default, isEmpty_false_of_ne s h]

/-- C6 (amended): the closing stage.  If the contact extractor finds a contact
in the current message (phone patterns are tried before the email pattern),
or a nonempty contact slot is already stored, the result has `success=true`,
`next_stage=none` and a response text containing that governing contact (the
order confirmation); otherwise the result has `success=false`,
`next_stage=closing` and asks for a contact. -/
theorem closing_stage_contract (kb : KnowledgeBase) (msg : String) (intent : Intent)
    (slots : SlotCollection) (hist : List Msg) :
    (∀ c, extract_contact msg = some c → c ≠ "" →
      (closing_process kb msg intent slots hist).1.success = true ∧
      (closing_process kb msg intent slots hist).1.next_stage = none ∧
      strContains (closing_process kb msg intent slots hist).1.response_text c = true) ∧
    (extract_contact msg = none →
      ∀ s, slots.get_value "contact" = some s → s ≠ "" →
      (closing_process kb msg intent slots hist).1.success = true ∧
      (closing_process kb msg intent slots hist).1.next_stage = none ∧
      strContains (closing_process kb msg intent slots hist).1.response_text s = true) ∧
    (extract_contact msg = none → py_truthy (slots.get_value "contact") = false →
      (closing_process kb msg intent slots hist).1.success = false ∧
      (closing_process kb msg intent slots hist).1.next_stage = some .closing ∧
      (closing_process kb msg intent slots hist).1.response_text =
        "Оставьте контакт для связи (телефон или email).") := by
  have hlk := extract_contact_lookup msg hist []
  refine ⟨?_, ?_, ?_⟩
  · intro c hc hne
    rw [hc] at hlk
    have hemp : c.isEmpty = false := isEmpty_false_of_ne c hne
    have hslots1 : closing_process kb msg intent slots hist =
        (⟨.closing, true,
          create_order_confirmation kb (slots.set_value "contact" c (ratN 1 1)),
          none, false, none, [], [("order_created", "true")]⟩,
         slots.set_value "contact" c (ratN 1 1)) := by
      simp only [closing_process]
      rw [hlk]
      simp only [hemp, Bool.false_eq_true, if_false]
      rw [if_pos (by
        rw [get_value_set_same]
        simp [py_truthy, hemp])]
    rw [hslots1]
    refine ⟨rfl, rfl, ?_⟩
    have h := confirmation_contains_contact kb (slots.set_value "contact" c (ratN 1 1))
    rw [get_value_set_same, py_or_default_of_ne c "" hne] at h
    exact h
  · intro hc s hs hne
    rw [hc] at hlk
    have hslots1 : closing_process kb msg intent slots hist =
        (⟨.closing, true, create_order_confirmation kb slots,
          none, false, none, [], [("order_created", "true")]⟩, slots) := by
      simp only [closing_process]
      rw [hlk]
      rw [if_pos (by
        rw [hs]
        simp [py_truthy, isEmpty_false_of_ne s hne])]
    rw [hslots1]
    refine ⟨rfl, rfl, ?_⟩
    have h := confirmation_contains_contact kb slots
    rw [hs, py_or_default_of_ne s "" hne] at h
    exact h
  · intro hc ht
    rw [hc] at hlk
    have hslots1 : closing_process kb msg intent slots hist =
        (⟨.closing, false, "Оставьте контакт для связи (телефон или email).",
          some .closing, false, none, [], []⟩, slots) := by
      simp only [closing_process]
      rw [hlk]
      rw [if_neg (by rw [ht]; simp)]
    rw [hslots1]
    exact ⟨rfl, rfl, rfl⟩

/-- A small concrete knowledge base for witnesses. -/
def example_kb : KnowledgeBase :=
  ⟨⟨"Студия", "Разработка сайтов", "https://example.ru", "+7 900 000-00-00",
    "hello@example.ru", "@studio"⟩,
   [], [],
   ⟨"Привет!", "До связи!", "Не нашёл ответ.", "Ошибка.", "Думаю..."⟩⟩

/-- Witness for C6: an email-only message with no prior contact slot succeeds
and echoes the email; a contact-free message with no stored contact stays in
closing and asks for a contact. -/
theorem closing_stage_contract_witness :
    extract_contact "Мой email: ivan@mail.ru" = some "ivan@mail.ru" ∧
    ((closing_process example_kb "Мой email: ivan@mail.ru" default_intent ⟨[], []⟩
        []).1.success = true ∧
     (closing_process example_kb "Мой email: ivan@mail.ru" default_intent ⟨[], []⟩
        []).1.next_stage = none ∧
     strContains (closing_process example_kb "Мой email: ivan@mail.ru" default_intent
        ⟨[], []⟩ []).1.response_text "ivan@mail.ru" = true) ∧
    ((closing_process example_kb "привет" default_intent ⟨[], []⟩ []).1.success
        = false ∧
     (closing_process example_kb "привет" default_intent ⟨[], []⟩ []).1.next_stage
        = some .closing ∧
     (closing_process example_kb "привет" default_intent ⟨[], []⟩ []).1.response_text
        = "Оставьте контакт для связи (телефон или email).") :=
  ⟨rfl,
   (closing_stage_contract example_kb "Мой email: ivan@mail.ru" default_intent
      ⟨[], []⟩ []).1 "ivan@mail.ru" rfl (by decide),
   (closing_stage_contract example_kb "привет" default_intent ⟨[], []⟩ []).2.2
      rfl rfl⟩

/-- C6 counterexample to the claim as stated: a message containing a valid
email together with a phone number stores the phone (phone patterns are tried
first), so the result succeeds but its response does not contain the email. -/
theorem closing_email_counterexample :
    reSearch emailAt "+7 999 123-45-67 ivan@mail.ru" = some "ivan@mail.ru" ∧
    extract_contact "+7 999 123-45-67 ivan@mail.ru" = some "+7 999 123-45-67" ∧
    (closing_process example_kb "+7 999 123-45-67 ivan@mail.ru" default_intent
        ⟨[], []⟩ []).1.success = true ∧
    (closing_process example_kb "+7 999 123-45-67 ivan@mail.ru" default_intent
        ⟨[], []⟩ []).1.next_stage = none ∧
    strContains (closing_process example_kb "+7 999 123-45-67 ivan@mail.ru"
        default_intent ⟨[], []⟩ []).1.response_text "ivan@mail.ru" = false :=
  ⟨rfl, rfl, rfl, rfl, rfl⟩

/-! ## FAQ search (src/knowledge/search.py) -/

/-- Python `\w` for the alphabets in use (the text is lowered first). -/
def is_word_char (c : Char) : Bool :=
  c.isAlpha || c.isDigit || c = '_' || ('а' ≤ c && c ≤ 'я') || c = 'ё'

/-- Collapse whitespace runs to a single space (`re.sub(r'\s+', ' ', ...)`). -/
def collapse_ws_aux (prev_space : Bool) : List Char → List Char
  | [] => []
  | c :: t =>
    if pyIsSpace c then
      if prev_space then collapse_ws_aux true t
      else ' ' :: collapse_ws_aux true t
    else c :: collapse_ws_aux false t

/-- Strip leading and trailing whitespace (Python `str.strip()`). -/
def stripL (l : List Char) : List Char :=
  ((l.dropWhile pyIsSpace).reverse.dropWhile pyIsSpace).reverse

/-- `normalize_text`: lower, collapse whitespace, drop punctuation, strip. -/
def normalize_text (text : String) : String :=
  let l := text.data.map toLowerRu
  let l := collapse_ws_aux false l
  let l := l.filter (fun c => is_word_char c || pyIsSpace c)
  ⟨stripL l⟩

/-- The stop-word set of `calculate_relevance`. -/
def stop_words : List String :=
  ["как", "что", "где", "когда", "почему", "зачем", "какой", "какая", "какие",
   "это", "мне", "вы", "ты", "у", "в", "на", "с", "и", "или", "а", "но",
   "скажи", "можно", "нужно", "есть"]

/-- The significant query words: longer than two characters and not stop words. -/
def significant_words (query_normalized : String) : List String :=
  (pyWords query_normalized).filter
    (fun w => decide (w.length > 2) && !(stop_words.contains w))

/-- One step of the keyword loop of `calculate_relevance`: +0.8 for a keyword
contained in the query verbatim, +0.4·(overlap fraction) for word overlap. -/
def relevance_kw_step (query_normalized : String) (query_words : List String)
    (acc : ℚ) (keyword : String) : ℚ :=
  if strContains query_normalized keyword then pyAdd acc (ratN 4 5)
  else
    let kwords := pyWords keyword
    let mk := query_words.countP (fun w => kwords.contains w)
    if mk > 0 then pyAdd acc (pyMul (ratN 2 5) (ratN mk query_words.length))
    else acc

/-- `calculate_relevance`, with exact rational scores. -/
def calculate_relevance (query : String) (item : FAQItem) : ℚ :=
  let query_normalized := normalize_text query
  let query_words := significant_words query_normalized
  if query_words.isEmpty then ratN 0 1
  else
    let question_normalized := normalize_text item.question
    let question_words := pyWords question_normalized
    let base :=
      if query_words.all (fun w => strContains question_normalized w) then ratN 1 1
      else
        let matched := query_words.countP (fun w => question_words.contains w)
        if matched > 0 then pyMul (ratN 3 5) (ratN matched query_words.length)
        else ratN 0 1
    let kw_score := (item.keywords.map normalize_text).foldl
      (relevance_kw_step query_normalized query_words) (ratN 0 1)
    let answer_words := pyWords (normalize_text item.answer)
    let ma := query_words.countP (fun w => answer_words.contains w)
    let answer_score :=
      if ma > 0 then pyMul (ratN 1 5) (ratN ma query_words.length) else ratN 0 1
    pyMin (pyAdd (pyAdd base kw_score) answer_score) (ratN 1 1)

/-- Stable insertion into a score-descending list (ties keep earlier items
first, like Python's stable `sort(..., reverse=True)`). -/
def insertDesc (x : FAQItem × ℚ) : List (FAQItem × ℚ) → List (FAQItem × ℚ)
  | [] => [x]
  | y :: t => if y.2 > x.2 then y :: insertDesc x t else x :: y :: t

/-- Stable insertion sort, descending by score.  An element is inserted in
front of the first element it strictly beats, so equal scores keep their
original order, as Python's stable `list.sort(key=..., reverse=True)` does. -/
def sortDesc : List (FAQItem × ℚ) → List (FAQItem × ℚ)
  | [] => []
  | x :: t => insertDesc x (sortDesc t)

/-- `quick_faq_check`: score every FAQ item, keep those at or above
`min_score`, return the best (first of the stable descending sort). -/
def quick_faq_check (query : String) (kb : KnowledgeBase) (min_score : ℚ) :
    Option (FAQItem × ℚ) :=
  if kb.faq.isEmpty then none
  else
    let scored := kb.faq.filterMap (fun item =>
      if calculate_relevance query item ≥ min_score then
        some (item, calculate_relevance query item)
      else none)
    match sortDesc scored with
    | [] => none
    | best :: _ => some best

/-! ### Claims about the FAQ search -/

theorem ratN_nonneg (m n : Nat) : 0 ≤ ratN m n := by
  rw [ratN_eq]
  positivity

theorem relevance_kw_step_ge (qn : String) (qw : List String) (acc : ℚ) (k : String) :
    acc ≤ relevance_kw_step qn qw acc k := by
  simp only [relevance_kw_step]
  split
  · rw [pyAdd_eq]
    have h45 : (0 : ℚ) ≤ ratN 4 5 := by rw [ratN_eq]; norm_num
    linarith
  · split
    · rw [pyAdd_eq, pyMul_eq]
      have h1 : (0 : ℚ) ≤ ratN 2 5 := by rw [ratN_eq]; norm_num
      have h2 := ratN_nonneg (qw.countP (fun w => (pyWords k).contains w)) qw.length
      nlinarith
    · exact le_refl acc

theorem foldl_kw_ge (qn : String) (qw : List String) (l : List String) (acc : ℚ) :
    acc ≤ l.foldl (relevance_kw_step qn qw) acc := by
  induction l generalizing acc with
  | nil => exact le_refl acc
  | cons k t ih =>
    rw [List.foldl_cons]
    exact le_trans (relevance_kw_step_ge qn qw acc k) (ih _)

/-- An FAQ item whose question equals the query scores at least the 0.75
threshold (in fact exactly 1), provided the query has a significant word. -/
theorem relevance_exact (query : String) (item : FAQItem)
    (hq : item.question = query)
    (hsig : significant_words (normalize_text query) ≠ []) :
    calculate_relevance query item ≥ ratN 3 4 := by
  simp only [calculate_relevance, hq]
  have hemp : (significant_words (normalize_text query)).isEmpty = false := by
    cases h : significant_words (normalize_text query) with
    | nil => exact absurd h hsig
    | cons a t => rfl
  rw [hemp]
  simp only [Bool.false_eq_true, if_false]
  have hall : (significant_words (normalize_text query)).all
      (fun w => strContains (normalize_text query) w) = true := by
    rw [List.all_eq_true]
    intro w hw
    have hw' : w ∈ pyWords (normalize_text query) := by
      unfold significant_words at hw
      exact List.mem_of_mem_filter hw
    exact pyWords_contains (normalize_text query) w hw'
  rw [if_pos hall]
  have hkw : (0 : ℚ) ≤ (item.keywords.map normalize_text).foldl
      (relevance_kw_step (normalize_text query) (significant_words (normalize_text query)))
      (ratN 0 1) :=
    le_trans (le_of_eq ratN_zero.symm)
      (foldl_kw_ge (normalize_text query) (significant_words (normalize_text query))
        (item.keywords.map normalize_text) (ratN 0 1))
  have hans : (0 : ℚ) ≤
      (if (significant_words (normalize_text query)).countP
            (fun w => (pyWords (normalize_text item.answer)).contains w) > 0 then
        pyMul (ratN 1 5)
          (ratN ((significant_words (normalize_text query)).countP
              (fun w => (pyWords (normalize_text item.answer)).contains w))
            (significant_words (normalize_text query)).length)
      else ratN 0 1) := by
    split
    · rw [pyMul_eq]
      have h1 : (0 : ℚ) ≤ ratN 1 5 := by rw [ratN_eq]; norm_num
      have h2 := ratN_nonneg ((significant_words (normalize_text query)).countP
          (fun w => (pyWords (normalize_text item.answer)).contains w))
        (significant_words (normalize_text query)).length
      nlinarith
    · rw [ratN_zero]
  rw [ge_iff_le, pyMin_eq, pyAdd_eq, pyAdd_eq, le_min_iff]
  have h1 : ratN 1 1 = 1 := by rw [ratN_eq]; norm_num
  have h34 : ratN 3 4 = (3 : ℚ)/4 := by rw [ratN_eq]; norm_num
  constructor
  · rw [h1, h34]
    linarith [hkw, hans]
  · rw [h1, h34]
    norm_num

theorem mem_insertDesc (x a : FAQItem × ℚ) (l : List (FAQItem × ℚ))
    (h : a ∈ insertDesc x l) : a = x ∨ a ∈ l := by
  induction l with
  | nil =>
    simp [insertDesc] at h
    exact Or.inl h
  | cons y t ih =>
    rw [insertDesc] at h
    split at h
    · rcases List.mem_cons.mp h with h' | h'
      · exact Or.inr (by rw [h']; exact List.mem_cons_self y t)
      · rcases ih h' with h'' | h''
        · exact Or.inl h''
        · exact Or.inr (List.mem_cons_of_mem y h'')
    · rcases List.mem_cons.mp h with h' | h'
      · exact Or.inl h'
      · exact Or.inr h'

theorem insertDesc_ne_nil (x : FAQItem × ℚ) (l : List (FAQItem × ℚ)) :
    insertDesc x l ≠ [] := by
  cases l with
  | nil => simp [insertDesc]
  | cons y t =>
    rw [insertDesc]
    split <;> simp

theorem mem_sortDesc (a : FAQItem × ℚ) (l : List (FAQItem × ℚ))
    (h : a ∈ sortDesc l) : a ∈ l := by
  induction l with
  | nil => exact absurd h (List.not_mem_nil a)
  | cons x t ih =>
    rw [sortDesc] at h
    rcases mem_insertDesc x a (sortDesc t) h with h' | h'
    · rw [h']
      exact List.mem_cons_self x t
    · exact List.mem_cons_of_mem x (ih h')

/-- C8 (amended): for every query having at least one significant word (longer
than two characters after normalization and not a stop word), and every
knowledge base containing an FAQ item whose question text exactly equals the
query, `quick_faq_check` with `min_score` 0.75 returns an item together with a
relevance score of at least 0.75 (the first highest-scoring item in knowledge
base order, which need not be the exact-match item when another item ties). -/
theorem quick_faq_exact_match (query : String) (kb : KnowledgeBase) (item : FAQItem)
    (hmem : item ∈ kb.faq) (hq : item.question = query)
    (hsig : significant_words (normalize_text query) ≠ []) :
    ∃ best score, quick_faq_check query kb (ratN 3 4) = some (best, score) ∧
      score ≥ ratN 3 4 := by
  have hrel := relevance_exact query item hq hsig
  have hempty : kb.faq.isEmpty = false := by
    cases hfaq : kb.faq with
    | nil => rw [hfaq] at hmem; exact absurd hmem (List.not_mem_nil item)
    | cons a t => rfl
  have hmem2 : (item, calculate_relevance query item) ∈ kb.faq.filterMap (fun it =>
      if calculate_relevance query it ≥ ratN 3 4 then
        some (it, calculate_relevance query it)
      else none) := by
    apply List.mem_filterMap.mpr
    exact ⟨item, hmem, by rw [if_pos hrel]⟩
  cases hs : sortDesc (kb.faq.filterMap (fun it =>
      if calculate_relevance query it ≥ ratN 3 4 then
        some (it, calculate_relevance query it)
      else none)) with
  | nil =>
    exfalso
    cases hf : kb.faq.filterMap (fun it =>
        if calculate_relevance query it ≥ ratN 3 4 then
          some (it, calculate_relevance query it)
        else none) with
    | nil => rw [hf] at hmem2; exact absurd hmem2 (List.not_mem_nil _)
    | cons y t =>
      rw [hf, sortDesc] at hs
      exact insertDesc_ne_nil y (sortDesc t) hs
  | cons best rest =>
    refine ⟨best.1, best.2, ?_, ?_⟩
    · unfold quick_faq_check
      rw [hempty]
      simp only [Bool.false_eq_true, if_false]
      rw [hs]
    · have hb : best ∈ sortDesc (kb.faq.filterMap (fun it =>
          if calculate_relevance query it ≥ ratN 3 4 then
            some (it, calculate_relevance query it)
          else none)) := by
        rw [hs]
        exact List.mem_cons_self best rest
      obtain ⟨a, -, hfa⟩ := List.mem_filterMap.mp (mem_sortDesc best _ hb)
      by_cases hc : calculate_relevance query a ≥ ratN 3 4
      · rw [if_pos hc] at hfa
        have heq := Option.some.inj hfa
        rw [← heq]
        exact hc
      · rw [if_neg hc] at hfa
        exact absurd hfa (by simp)

/-- Witness for C8 at query "цена услуги" over a one-item knowledge base. -/
theorem quick_faq_exact_match_witness :
    ∃ best score,
      quick_faq_check "цена услуги"
        ⟨example_kb.company, [], [⟨1, "цена услуги", "Стоимость от 10000 руб.", "pricing", []⟩],
          example_kb.phrases⟩ (ratN 3 4) = some (best, score) ∧
      score ≥ ratN 3 4 :=
  quick_faq_exact_match "цена услуги"
    ⟨example_kb.company, [], [⟨1, "цена услуги", "Стоимость от 10000 руб.", "pricing", []⟩],
      example_kb.phrases⟩
    ⟨1, "цена услуги", "Стоимость от 10000 руб.", "pricing", []⟩
    (List.mem_cons_self _ _) rfl (by decide)

/-- C8 counterexample to the claim as stated, in both failure modes.  First: a
query with no significant words ("аб" is only two characters long) scores 0
against the FAQ item whose question equals it, so nothing is returned at all.
Second: with two items whose questions both equal the query, the earlier item
wins the tie, so the exact-match requirement "returns that item" fails for
the later one. -/
theorem quick_faq_counterexample :
    quick_faq_check "аб"
      ⟨example_kb.company, [], [⟨1, "аб", "ответ", "c", []⟩], example_kb.phrases⟩
      (ratN 3 4) = none ∧
    (⟨2, "цена услуги", "200", "c", []⟩ : FAQItem).question = "цена услуги" ∧
    (quick_faq_check "цена услуги"
      ⟨example_kb.company, [],
        [⟨1, "цена услуги", "100", "c", []⟩, ⟨2, "цена услуги", "200", "c", []⟩],
        example_kb.phrases⟩ (ratN 3 4)).map (fun p => p.1)
      = some ⟨1, "цена услуги", "100", "c", []⟩ ∧
    (⟨1, "цена услуги", "100", "c", []⟩ : FAQItem) ≠ ⟨2, "цена услуги", "200", "c", []⟩ := by
  refine ⟨?_, rfl, ?_, by decide⟩
  · rfl
  · rfl

/-! ## Chat handler control flow (src/bot/handlers/chat_new.py)

The observable actions of `handle_text_message` are modelled as an event
trace: persistence, analytics logging, ticket creation, outbound sends, and an
explicit `funnel_routed` marker emitted exactly where `FunnelRouter.route` is
invoked.  The LLM call of step 6 is an external collaborator and enters as
the `gen_response` parameter; `datetime.now()` enters as `now`. -/

inductive TEvent
  | conv_started
  | saved (role : String) (content : String)
  | intent_logged (name : String) (confidence : ℚ)
  | ticket_created (t : TicketType) (p : TicketPriority)
  | sent (text : String)
  | funnel_routed
  | stage_changed (old new : String)
deriving DecidableEq

/-- Events of `handle_escalation`: create the ticket (type from the group map,
priority per type), log it, and send the canned per-intent message. -/
def handle_escalation_events (intent : Intent) : List TEvent :=
  [TEvent.ticket_created (ticket_type_for_escalation intent.group)
      (get_priority_by_type (ticket_type_for_escalation intent.group)),
   TEvent.sent (get_escalation_message intent)]

/-- Events of `handle_stage_handoff`: a sales-lead ticket and the stage's
response text (or the generic notice). -/
def handle_stage_handoff_events (result : StageResult) : List TEvent :=
  [TEvent.ticket_created TicketType.sales_lead
      (get_priority_by_type TicketType.sales_lead),
   TEvent.sent (py_or_default (some result.response_text)
      "Передаю ваш запрос специалисту.")]

/-- `handle_text_message`: the per-turn pipeline.  Returns the event trace and
the user's funnel-context map entry after the turn (`none` if the user has no
context yet). -/
def handle_text_message (kb : KnowledgeBase) (text : String) (history : List Msg)
    (ctx? : Option FunnelContext) (user_id : Int) (gen_response : String)
    (now : String) : List TEvent × Option FunnelContext :=
  let intent := classify text
  let base := [TEvent.conv_started, TEvent.saved "user" text,
    TEvent.intent_logged intent.name intent.confidence]
  if (should_escalate intent intent.confidence).1 then
    (base ++ handle_escalation_events intent, ctx?)
  else
    match quick_faq_check text kb (ratN 7 10) with
    | some (faq_item, _score) =>
      (base ++ [TEvent.saved "assistant" faq_item.answer, TEvent.sent faq_item.answer],
       ctx?)
    | none =>
      let ctx0 := match ctx? with
        | some c => c
        | none => ⟨user_id, .acquisition, ⟨[], []⟩, [], none⟩
      let extracted := extract text history []
      let ctx1 : FunnelContext :=
        ⟨ctx0.user_id, ctx0.current_stage, merge_extracted ctx0.slots extracted,
         ctx0.stage_entry_count, ctx0.last_stage_change⟩
      let old_stage := ctx1.current_stage
      let routed := route kb ctx1 text intent history now
      let result := routed.1
      let ctx2 := routed.2
      let stage_events :=
        if ctx2.current_stage ≠ old_stage then
          [TEvent.stage_changed (stage_value old_stage) (stage_value ctx2.current_stage)]
        else []
      if result.requires_handoff then
        (base ++ [TEvent.funnel_routed] ++ stage_events ++
          handle_stage_handoff_events result, some ctx2)
      else
        let ai_response :=
          if result.response_text.isEmpty || decide (result.response_text.length < 20) then
            gen_response
          else result.response_text
        (base ++ [TEvent.funnel_routed] ++ stage_events ++
          [TEvent.saved "assistant" ai_response, TEvent.sent ai_response], some ctx2)

/-- Whether an event marks funnel activity (router invocation or a stage
transition). -/
def is_funnel_event : TEvent → Bool
  | .funnel_routed => true
  | .stage_changed _ _ => true
  | _ => false

/-- C2: on every escalated turn the handler creates the ticket, sends the
escalation message and terminates: the trace is exactly classification
logging followed by the escalation events, the funnel router is never invoked
(no funnel event occurs), and the user's funnel context is unchanged.  In
particular, the input "Хочу вернуть заказ 12345" classifies to the group
"complaints" and escalates. -/
theorem escalation_short_circuits :
    (∀ (kb : KnowledgeBase) (text : String) (history : List Msg)
        (ctx? : Option FunnelContext) (user_id : Int) (gen : String) (now : String),
      (should_escalate (classify text) (classify text).confidence).1 = true →
      handle_text_message kb text history ctx? user_id gen now =
        ([TEvent.conv_started, TEvent.saved "user" text,
          TEvent.intent_logged (classify text).name (classify text).confidence] ++
          handle_escalation_events (classify text), ctx?) ∧
      (∀ e ∈ (handle_text_message kb text history ctx? user_id gen now).1,
        is_funnel_event e = false) ∧
      (handle_text_message kb text history ctx? user_id gen now).2 = ctx?) ∧
    (classify "Хочу вернуть заказ 12345").group = "complaints" ∧
    (should_escalate (classify "Хочу вернуть заказ 12345")
      (classify "Хочу вернуть заказ 12345").confidence).1 = true := by
  refine ⟨?_, by decide, by decide⟩
  intro kb text history ctx? user_id gen now h
  have heq : handle_text_message kb text history ctx? user_id gen now =
      ([TEvent.conv_started, TEvent.saved "user" text,
        TEvent.intent_logged (classify text).name (classify text).confidence] ++
        handle_escalation_events (classify text), ctx?) := by
    unfold handle_text_message
    rw [if_pos h]
  refine ⟨heq, ?_, ?_⟩
  · intro e he
    rw [heq] at he
    simp only [handle_escalation_events, List.mem_append, List.mem_cons,
      List.not_mem_nil, or_false] at he
    rcases he with (h1 | h1 | h1) | (h1 | h1) <;> simp [h1, is_funnel_event]
  · rw [heq]

/-- Witness for C2: the full pipeline at "Хочу вернуть заказ 12345" with no
prior funnel context — the classifier yields refund_request/complaints with
confidence 31/70, the turn escalates into a sales-lead P3 ticket and the
canned refund message, and the context map entry stays absent. -/
theorem escalation_short_circuits_witness :
    handle_text_message example_kb "Хочу вернуть заказ 12345" [] none 1 "" "t0" =
      ([TEvent.conv_started, TEvent.saved "user" "Хочу вернуть заказ 12345",
        TEvent.intent_logged "refund_request" (ratN 31 70),
        TEvent.ticket_created TicketType.sales_lead TicketPriority.P3,
        TEvent.sent ("Ваш запрос на возврат принят. Менеджер свяжется с вами в течение 24 часов для уточнения деталей.")],
       none) :=
  ((escalation_short_circuits.1 example_kb "Хочу вернуть заказ 12345" [] none 1 "" "t0"
      (by decide)).1).trans (by decide)

end FaqBot
